import Mathlib

/-!
Verification of the notebook execution-queue scheduler
(`src/cpp/session/modules/rmarkdown/NotebookQueue.cpp`).

The scheduler state (`NotebookQueueState`) mirrors the private fields of the
C++ `NotebookQueue` class: the list of per-document queues (`queue_`), the
currently executing unit (`execUnit_`) and its attached primary-engine
execution context (`execContext_`).  Outbound effects — client notifications,
console-input submissions, interpreter-visible errors, log lines and
alternate-engine hand-offs — are recorded as an `Event` trace returned
alongside the new state.

`NotebookQueueUnit` and `NotebookDocQueue` live in companion translation
units that are not part of the sources under study; their small interface
(completion test, destructive range pop, delete-by-identity mutation) is
modelled from the spec where noted.
-/

namespace Notebook

/-- Mirrors the C++ `ChunkExecState` enum (`Started = 0`, `Finished = 1`,
`Cancelled = 2`). -/
inductive ChunkExecState
  | Started
  | Finished
  | Cancelled
deriving DecidableEq, Repr

/-- Expression mode passed to `process`: a fresh top-level prompt (`New`) or a
continuation-of-expression prompt (`Continuation`). -/
inductive ExpressionMode
  | New
  | Continuation
deriving DecidableEq, Repr

/-- Mirrors `ExecMode` (`ExecModeBatch` / `ExecModeInteractive`). -/
inductive ExecMode
  | Batch
  | Interactive
deriving DecidableEq, Repr

/-- Mirrors `ExecScope` (`ExecScopeChunk` / `ExecScopeLine`). -/
inductive ExecScope
  | Chunk
  | Line
deriving DecidableEq, Repr

/-- Mirrors `CommitMode` (`ModeCommitted` / `ModeUncommitted`). -/
inductive CommitMode
  | Committed
  | Uncommitted
deriving DecidableEq, Repr

/-- The chunk options read by the scheduler out of the parsed options object.
A field of `none` models the key being absent from the `json::Object`;
`json::readObject` leaves the caller's default in place in that case. -/
structure ChunkOptions where
  eval : Option Bool := none
  error : Option Bool := none
  engine : Option String := none
deriving DecidableEq, Repr

/-- Modelled from the spec: an ExecutionUnit carries its `(documentId,
chunkId)` identity, execution mode and scope, the ordered pending source
ranges still to execute, and lazily parsed raw options.  `parseOptions = none`
models `NotebookQueueUnit::parseOptions` returning an `Error` (in which case
the out-parameter object stays empty); `innerCode = none` models
`NotebookQueueUnit::innerCode` returning an `Error`.  `altEngineOk` models
whether the external `executeAlternateEngineChunk` collaborator call succeeds
for this unit, and `executingCode` the text reported by
`NotebookQueueUnit::executingCode`. -/
structure NotebookQueueUnit where
  docId : String
  chunkId : String
  execMode : ExecMode
  execScope : ExecScope
  pendingRanges : List String
  parseOptions : Option ChunkOptions
  innerCode : Option String
  executingCode : String := ""
  altEngineOk : Bool := true
deriving DecidableEq, Repr

/-- Modelled from the spec: a unit is complete iff `pendingRanges` is empty
(`NotebookQueueUnit::complete`). -/
def NotebookQueueUnit.complete (u : NotebookQueueUnit) : Bool :=
  u.pendingRanges.isEmpty

/-- Modelled from the spec: `NotebookQueueUnit::popExecRange` destructively
consumes the next pending range and yields its literal source text.  The
expression mode does not affect which range is popped in this model. -/
def NotebookQueueUnit.popExecRange (u : NotebookQueueUnit)
    (_mode : ExpressionMode) : String × NotebookQueueUnit :=
  match u.pendingRanges with
  | [] => ("", u)
  | c :: cs => (c, { u with pendingRanges := cs })

/-- Modelled from the spec: a DocumentQueue holds one document's ordered units
plus its commit mode and output geometry (`NotebookDocQueue`). -/
structure NotebookDocQueue where
  docId : String
  units : List NotebookQueueUnit
  commitMode : CommitMode
  pixelWidth : Nat := 0
  charWidth : Nat := 0
deriving DecidableEq, Repr

/-- Modelled from the spec: a DocumentQueue is complete iff its unit list is
empty (`NotebookDocQueue::complete`). -/
def NotebookDocQueue.complete (dq : NotebookDocQueue) : Bool :=
  dq.units.isEmpty

/-- Modelled from the spec: the `QueueDelete` case of
`NotebookDocQueue::update` — remove the (first) unit matching the given
unit's doc/chunk identity; deleting an absent unit is a no-op. -/
def NotebookDocQueue.deleteUnit (dq : NotebookDocQueue)
    (u : NotebookQueueUnit) : NotebookDocQueue :=
  { dq with
    units := dq.units.eraseP
      (fun v => v.docId == u.docId && v.chunkId == u.chunkId) }

/-- Mirrors `ChunkExecContext`: per-chunk runtime state attached to the
interpreter while a primary-engine chunk is active.  `hasErrors` reflects
whether the interpreter has reported an error since attachment (set by the
environment between scheduler invocations); `connected` tracks whether the
context's output subscription is still attached. -/
structure ChunkExecContext where
  docId : String
  chunkId : String
  ctxId : String
  scope : ExecScope
  options : ChunkOptions
  pixelWidth : Nat
  charWidth : Nat
  hasErrors : Bool
  connected : Bool
deriving DecidableEq, Repr

/-- Outbound effects of the scheduler, in emission order:
client `ChunkExecStateChanged` notifications, `NotebookRangeExecuted`
notifications, console-input submissions (`none` models the empty
`json::Value()` interrupt input), interpreter-visible errors raised via
`r::exec::error`, `onExprComplete` calls on the attached context,
`disconnect` calls on a context, `LOG_ERROR` lines, and hand-offs to
`executeAlternateEngineChunk`. -/
inductive Event
  | stateChanged (docId chunkId : String) (state : ChunkExecState)
  | rangeExecuted (docId chunkId code : String) (mode : ExpressionMode)
  | consoleInput (chunkId : String) (input : Option String)
  | rError (msg : String)
  | exprComplete (docId chunkId : String)
  | ctxDisconnected (docId chunkId : String)
  | logError
  | altEngineExec (docId chunkId ctxId engine code : String)
deriving DecidableEq, Repr

/-- The scheduler's private state: `queue_`, `execUnit_`, `execContext_`. -/
structure NotebookQueueState where
  queue : List NotebookDocQueue
  execUnit : Option NotebookQueueUnit
  execContext : Option ChunkExecContext
deriving DecidableEq, Repr

/-- The persisted-cache context id `kSavedCtx` (external constant). -/
def kSavedCtx : String := "saved"

/-- The live/unsaved notebook context id returned by `notebookCtxId()`
(external collaborator). -/
def notebookCtxId : String := "unsaved"

/-- `NotebookQueue::complete`: the global queue is done when the list of
document queues is empty. -/
def NotebookQueueState.complete (s : NotebookQueueState) : Bool :=
  s.queue.isEmpty

/-- `NotebookQueue::popUnit`: if any document queue remains, delete the given
unit (by identity) from the head document queue, and drop the head queue when
that leaves it complete. -/
def NotebookQueueState.popUnit (s : NotebookQueueState)
    (u : NotebookQueueUnit) : NotebookQueueState :=
  match s.queue with
  | [] => s
  | dq :: rest =>
    let dq' := dq.deleteUnit u
    if dq'.complete then { s with queue := rest }
    else { s with queue := dq' :: rest }

/-- `NotebookQueue::clear`: disconnect any active execution context, reset the
current unit, and remove all document queues.  Note the C++ resets
`execUnit_` but only disconnects `execContext_` — the context pointer itself
is retained. -/
def NotebookQueueState.clear (s : NotebookQueueState) :
    NotebookQueueState × List Event :=
  (⟨[], none, s.execContext.map (fun c => { c with connected := false })⟩,
   match s.execContext with
   | some c => [.ctxDisconnected c.docId c.chunkId]
   | none => [])

/-- `NotebookQueue::executeCurrentUnit`: pop the next range from the current
unit, submit it as console input, and notify the client that the range was
sent.  When the mode is `New` and a context is attached, the context's
`onExprComplete` hook runs first.  (In C++ the popped unit is the same shared
object held by its document queue; the queued copy's ranges are never
consulted again before the unit is deleted from the queue, so only
`execUnit_` is updated here.) -/
def NotebookQueueState.executeCurrentUnit (s : NotebookQueueState)
    (mode : ExpressionMode) : NotebookQueueState × List Event :=
  match s.execUnit with
  | none => (s, [])
  | some u =>
    let pre : List Event :=
      match mode, s.execContext with
      | .New, some c => [.exprComplete c.docId c.chunkId]
      | _, _ => []
    let (code, u') := u.popExecRange mode
    ({ s with execUnit := some u' },
     pre ++ [.consoleInput u.chunkId (some code),
             .rangeExecuted u.docId u.chunkId code mode])

/-- The execution-cache context id chosen for a document queue: the
persisted-cache id for committed (saved) documents, the live notebook id
otherwise. -/
def docCtxId (docQueue : NotebookDocQueue) : String :=
  if docQueue.commitMode == .Committed then kSavedCtx else notebookCtxId

/-- The fresh `ChunkExecContext` attached when a primary-engine unit is
dispatched (`boost::make_shared<ChunkExecContext>(...)` followed by
`connect()`). -/
def mkChunkExecContext (unit : NotebookQueueUnit) (options : ChunkOptions)
    (ctx : String) (docQueue : NotebookDocQueue) : ChunkExecContext :=
  { docId := unit.docId, chunkId := unit.chunkId, ctxId := ctx,
    scope := unit.execScope, options := options,
    pixelWidth := docQueue.pixelWidth, charWidth := docQueue.charWidth,
    hasErrors := false, connected := true }

/-- Total number of queued units across all document queues; termination
measure for the mutual recursion between `executeNextUnit` and `skipUnit`. -/
def totalUnits (qs : List NotebookDocQueue) : Nat :=
  (qs.map (fun dq => dq.units.length)).sum

mutual

/-- `NotebookQueue::executeNextUnit`: dispatch the first unit of the head
document queue.  Parse its options (logging a parse failure); in batch mode
skip it when `eval=false`; resolve the context id and the engine; for the
primary engine attach a fresh `ChunkExecContext`, notify Started and submit
the first range; for an alternate engine resolve the inner code, notify
Started and hand off.  Any pending resolution/hand-off error then causes
`skipUnit`. -/
def NotebookQueueState.executeNextUnit (s : NotebookQueueState)
    (mode : ExpressionMode) : NotebookQueueState × List Event :=
  match hq : s.queue with
  | [] => (s, [])
  | docQueue :: _ =>
    match hu : docQueue.units with
    | [] => (s, [])
    | unit :: _ =>
      let parseFailed := unit.parseOptions.isNone
      let options := unit.parseOptions.getD {}
      let logEvs : List Event := if parseFailed then [.logError] else []
      if unit.execMode == .Batch && !(options.eval.getD true) then
        let r := s.skipUnit
        (r.1, logEvs ++ r.2)
      else
        let ctx := docCtxId docQueue
        let engine := options.engine.getD "r"
        if engine == "r" then
          let c : ChunkExecContext := mkChunkExecContext unit options ctx docQueue
          let s1 : NotebookQueueState :=
            { s with execContext := some c, execUnit := some unit }
          let started : Event :=
            .stateChanged unit.docId unit.chunkId .Started
          if parseFailed then
            let r := s1.skipUnit
            (r.1, logEvs ++ started :: r.2)
          else
            let r := s1.executeCurrentUnit .New
            (r.1, logEvs ++ started :: r.2)
        else
          match unit.innerCode with
          | none =>
            let r := s.skipUnit
            (r.1, logEvs ++ .logError :: r.2)
          | some code =>
            let s1 : NotebookQueueState := { s with execUnit := some unit }
            let started : Event :=
              .stateChanged unit.docId unit.chunkId .Started
            let handOff : Event :=
              .altEngineExec unit.docId unit.chunkId ctx engine code
            if unit.altEngineOk then
              (s1, logEvs ++ [started, handOff])
            else
              let r := s1.skipUnit
              (r.1, logEvs ++ started :: handOff :: .logError :: r.2)
termination_by (totalUnits s.queue, 1)

/-- `NotebookQueue::skipUnit`: remove the head document queue's first unit,
mark it the current unit, notify Cancelled for it, and recursively dispatch
the next unit. -/
def NotebookQueueState.skipUnit (s : NotebookQueueState) :
    NotebookQueueState × List Event :=
  match hq : s.queue with
  | [] => (s, [])
  | docQueue :: _ =>
    match hu : docQueue.units with
    | [] => (s, [])
    | unit :: _ =>
      let s2 : NotebookQueueState :=
        { s.popUnit unit with execUnit := some unit }
      let r := s2.executeNextUnit .New
      (r.1, .stateChanged unit.docId unit.chunkId .Cancelled :: r.2)
termination_by (totalUnits s.queue, 0)
decreasing_by
  simp only [Prod.lex_iff]
  left
  simp only [NotebookQueueState.popUnit, hq, NotebookDocQueue.complete,
    NotebookDocQueue.deleteUnit, hu, List.eraseP_cons, beq_self_eq_true,
    Bool.and_self, if_pos, totalUnits, List.map_cons, List.sum_cons]
  split <;> simp_all

end

/-- `NotebookQueue::process`: the transition driver.  Return immediately when
no document queues remain or the interpreter is mid-evaluation (`rBusy`
models `r::getGlobalContext()->nextcontext != NULL`).  With a current unit:
a reported context error with `error` option false/unset clears all state; a
complete unit is popped and Finished is notified (raising the
incomplete-expression fault first when a Chunk-scope unit is advanced in
Continuation mode, in which case dispatch is suppressed); an incomplete unit
executes its next range.  With no current unit, dispatch the next one. -/
def NotebookQueueState.process (s : NotebookQueueState)
    (mode : ExpressionMode) (rBusy : Bool) : NotebookQueueState × List Event :=
  if s.queue.isEmpty then (s, [])
  else if rBusy then (s, [])
  else
    match s.execUnit with
    | some u =>
      let fatal :=
        match s.execContext with
        | some c => c.hasErrors && !(c.options.error.getD false)
        | none => false
      if fatal then s.clear
      else if u.complete then
        let incomplete := mode == .Continuation && u.execScope == .Chunk
        let incEvs : List Event :=
          if incomplete then
            [.rError ("Incomplete expression: " ++ u.executingCode),
             .consoleInput u.chunkId none]
          else []
        let s1 := s.popUnit u
        let finEv : Event := .stateChanged u.docId u.chunkId .Finished
        let ctxEvs : List Event :=
          match s1.execContext with
          | some c => [.ctxDisconnected c.docId c.chunkId]
          | none => []
        let s2 : NotebookQueueState :=
          { s1 with execContext := none, execUnit := none }
        if incomplete then (s2, incEvs ++ finEv :: ctxEvs)
        else
          let r := s2.executeNextUnit mode
          (r.1, incEvs ++ finEv :: (ctxEvs ++ r.2))
      else s.executeCurrentUnit mode
    | none => s.executeNextUnit mode

/-- `NotebookQueue::onChunkExecCompleted`: if the completed `(docId, chunkId)`
names the current unit and no primary-engine context is attached (so the unit
was handed to an alternate engine), pop the unit, notify Finished, clear the
current unit and re-enter `process(New)`.  The notification's `nbCtxId`
argument is never consulted. -/
def NotebookQueueState.onChunkExecCompleted (s : NotebookQueueState)
    (docId chunkId _nbCtxId : String) (rBusy : Bool) :
    NotebookQueueState × List Event :=
  match s.execUnit with
  | none => (s, [])
  | some u =>
    if u.docId == docId && u.chunkId == chunkId && s.execContext.isNone then
      let s1 := s.popUnit u
      let finEv : Event := .stateChanged u.docId u.chunkId .Finished
      let s2 : NotebookQueueState := { s1 with execUnit := none }
      let r := s2.process .New rBusy
      (r.1, finEv :: r.2)
    else (s, [])

/-- The prompt classification inside `NotebookQueue::onConsolePrompt`:
`prompt == "+ " ? ExprModeContinuation : ExprModeNew`. -/
def promptMode (prompt : String) : ExpressionMode :=
  if prompt == "+ " then .Continuation else .New

/-- `NotebookQueue::onConsolePrompt` (the member): process in Continuation
mode when the prompt is the R continuation prompt, otherwise in New mode. -/
def NotebookQueueState.onConsolePrompt (s : NotebookQueueState)
    (prompt : String) (rBusy : Bool) : NotebookQueueState × List Event :=
  s.process (promptMode prompt) rBusy

/-- The free `onConsolePrompt` handler: forward the prompt to the global
queue if one exists, then tear the global queue down if it reports
complete. -/
def globalOnConsolePrompt (g : Option NotebookQueueState) (prompt : String)
    (rBusy : Bool) : Option NotebookQueueState × List Event :=
  match g with
  | none => (none, [])
  | some s =>
    let r := s.onConsolePrompt prompt rBusy
    if r.1.complete then (none, r.2) else (some r.1, r.2)

/-- The free `onUserInterrupt` handler: if a global queue exists, clear it
and discard it. -/
def globalOnUserInterrupt (g : Option NotebookQueueState) :
    Option NotebookQueueState × List Event :=
  match g with
  | none => (none, [])
  | some s => (none, s.clear.2)

/-- The client-visible execution-state notifications in a trace. -/
def notifications (evs : List Event) : List Event :=
  evs.filter fun e =>
    match e with
    | .stateChanged _ _ _ => true
    | _ => false

/-- The `(docId, chunkId)` identities of Finished notifications, in order. -/
def finishedIds (evs : List Event) : List (String × String) :=
  evs.filterMap fun e =>
    match e with
    | .stateChanged d c .Finished => some (d, c)
    | _ => none

/-- The `(docId, chunkId)` identities of all queued units, head queue
first. -/
def queueIds (qs : List NotebookDocQueue) : List (String × String) :=
  qs.flatMap fun dq => dq.units.map fun u => (u.docId, u.chunkId)

/-- Drive the scheduler with up to `n` successive idle-interpreter New-mode
readiness signals, stopping once no document queues remain; the event traces
are concatenated.  Models the initial `process(New)` issued by the
execute-chunks request followed by console-prompt signals in an environment
where evaluation reports no errors. -/
def runN : Nat → NotebookQueueState → List Event
  | 0, _ => []
  | n + 1, s =>
    if s.queue.isEmpty then []
    else
      let r := s.process .New false
      r.2 ++ runN n r.1

/-- A unit the FIFO-order property quantifies over: options parse, the engine
resolves to the primary interpreter, `eval` is not false, and exactly one
source range is pending. -/
def benignUnit (u : NotebookQueueUnit) : Bool :=
  match u.parseOptions with
  | some o =>
    (o.engine.getD "r" == "r") && o.eval.getD true &&
      u.pendingRanges.length == 1
  | none => false

/-- A nonempty document queue all of whose units are benign. -/
def benignQueue (dq : NotebookDocQueue) : Bool :=
  !dq.units.isEmpty && dq.units.all benignUnit

/-- Clear the error flag of any attached execution context; used to state
that the continue-on-error path behaves as if no error had occurred (the
retained context still carries the real flag). -/
def scrubErrors (s : NotebookQueueState) : NotebookQueueState :=
  { s with execContext := s.execContext.map fun c => { c with hasErrors := false } }

/-! ### Concrete instances used to witness and to refute claims -/

/-- An uncommitted document queue with the given units. -/
def docQueueOf (d : String) (us : List NotebookQueueUnit) : NotebookDocQueue :=
  { docId := d, units := us, commitMode := .Uncommitted }

/-- A unit whose options fail to parse (so the engine defaults to the
primary interpreter at dispatch). -/
def unitOptFail : NotebookQueueUnit :=
  { docId := "d", chunkId := "c1", execMode := .Interactive,
    execScope := .Chunk, pendingRanges := ["x"], parseOptions := none,
    innerCode := some "x", executingCode := "x" }

/-- Initial scheduler state holding only `unitOptFail`. -/
def stInitOptFail : NotebookQueueState :=
  ⟨[docQueueOf "d" [unitOptFail]], none, none⟩

/-- A batch unit whose parsed options declare `eval = false`. -/
def unitEvalFalse : NotebookQueueUnit :=
  { docId := "d", chunkId := "c1", execMode := .Batch, execScope := .Chunk,
    pendingRanges := ["x"],
    parseOptions := some ({ eval := some false } : ChunkOptions),
    innerCode := some "x", executingCode := "x" }

/-- Initial scheduler state holding only `unitEvalFalse`. -/
def stInitEvalFalse : NotebookQueueState :=
  ⟨[docQueueOf "d" [unitEvalFalse]], none, none⟩

/-- An alternate-engine unit whose inner source fails to resolve. -/
def unitInnerFail : NotebookQueueUnit :=
  { docId := "d", chunkId := "c1", execMode := .Batch, execScope := .Chunk,
    pendingRanges := ["x"],
    parseOptions := some ({ engine := some "python" } : ChunkOptions),
    innerCode := none, executingCode := "x" }

/-- Initial scheduler state holding only `unitInnerFail`. -/
def stInitInnerFail : NotebookQueueState :=
  ⟨[docQueueOf "d" [unitInnerFail]], none, none⟩

/-- A chunk-scope unit with no pending ranges (fully submitted). -/
def unitDone : NotebookQueueUnit :=
  { docId := "d", chunkId := "c1", execMode := .Batch, execScope := .Chunk,
    pendingRanges := [], parseOptions := some ({} : ChunkOptions),
    innerCode := some "x", executingCode := "1 +" }

/-- A context that has reported an evaluation error; its options leave
`error` unset. -/
def ctxErr : ChunkExecContext :=
  { docId := "d", chunkId := "c1", ctxId := notebookCtxId, scope := .Chunk,
    options := {}, pixelWidth := 0, charWidth := 0,
    hasErrors := true, connected := true }

/-- A context that has reported an evaluation error under `error=true`
options. -/
def ctxErrContinue : ChunkExecContext :=
  { ctxErr with options := ({ error := some true } : ChunkOptions) }

/-- A context with no reported errors. -/
def ctxOk : ChunkExecContext := { ctxErr with hasErrors := false }

/-- `unitDone` current and complete while its context reports an error with
`error` unset. -/
def stErrFatal : NotebookQueueState :=
  ⟨[docQueueOf "d" [unitDone]], some unitDone, some ctxErr⟩

/-- `unitDone` current and complete while its context reports an error with
`error=true`. -/
def stErrContinue : NotebookQueueState :=
  ⟨[docQueueOf "d" [unitDone]], some unitDone, some ctxErrContinue⟩

/-- `unitDone` current and complete with a healthy context: the state an
incompleteness fault is raised from when advanced in Continuation mode. -/
def stIncomplete : NotebookQueueState :=
  ⟨[docQueueOf "d" [unitDone]], some unitDone, some ctxOk⟩

/-- An alternate-engine unit, fully handed off (no pending ranges). -/
def unitAlt : NotebookQueueUnit :=
  { docId := "d", chunkId := "c1", execMode := .Batch, execScope := .Chunk,
    pendingRanges := [],
    parseOptions := some ({ engine := some "python" } : ChunkOptions),
    innerCode := some "x", executingCode := "x" }

/-- `unitAlt` executing on its alternate engine: current unit with no
attached context. -/
def stAlt : NotebookQueueState :=
  ⟨[docQueueOf "d" [unitAlt]], some unitAlt, none⟩

/-- Three benign single-range primary-engine units across two documents. -/
def unitA : NotebookQueueUnit :=
  { docId := "d1", chunkId := "a", execMode := .Batch, execScope := .Chunk,
    pendingRanges := ["ra"], parseOptions := some ({} : ChunkOptions),
    innerCode := some "ra", executingCode := "ra" }

def unitB : NotebookQueueUnit :=
  { docId := "d1", chunkId := "b", execMode := .Batch, execScope := .Chunk,
    pendingRanges := ["rb"], parseOptions := some ({} : ChunkOptions),
    innerCode := some "rb", executingCode := "rb" }

def unitC : NotebookQueueUnit :=
  { docId := "d2", chunkId := "cc", execMode := .Batch, execScope := .Chunk,
    pendingRanges := ["rc"], parseOptions := some ({} : ChunkOptions),
    innerCode := some "rc", executingCode := "rc" }

/-- Two document queues: `d1` holding units `a`, `b` and `d2` holding `cc`. -/
def fifoQueues : List NotebookDocQueue :=
  [docQueueOf "d1" [unitA, unitB], docQueueOf "d2" [unitC]]

/-! ### Unfolding and step lemmas -/

theorem popUnit_execUnit (s : NotebookQueueState) (u : NotebookQueueUnit) :
    (s.popUnit u).execUnit = s.execUnit := by
  unfold NotebookQueueState.popUnit
  rcases s.queue with _ | ⟨dq, rest⟩
  · rfl
  · dsimp only
    split <;> rfl

theorem popUnit_execContext (s : NotebookQueueState) (u : NotebookQueueUnit) :
    (s.popUnit u).execContext = s.execContext := by
  unfold NotebookQueueState.popUnit
  rcases s.queue with _ | ⟨dq, rest⟩
  · rfl
  · dsimp only
    split <;> rfl

theorem popUnit_cons_match (s : NotebookQueueState) (dq : NotebookDocQueue)
    (rest : List NotebookDocQueue) (u v : NotebookQueueUnit)
    (us : List NotebookQueueUnit)
    (hq : s.queue = dq :: rest) (hu : dq.units = v :: us)
    (h1 : v.docId = u.docId) (h2 : v.chunkId = u.chunkId) :
    s.popUnit u =
      { s with queue := if us.isEmpty then rest
                        else { dq with units := us } :: rest } := by
  have hdel : dq.deleteUnit u = { dq with units := us } := by
    unfold NotebookDocQueue.deleteUnit
    rw [hu, List.eraseP_cons, h1, h2]
    simp
  unfold NotebookQueueState.popUnit
  rw [hq]
  dsimp only
  rw [hdel]
  unfold NotebookDocQueue.complete
  dsimp only
  split <;> simp_all

theorem executeNextUnit_queue_nil (s : NotebookQueueState)
    (m : ExpressionMode) (h : s.queue = []) :
    s.executeNextUnit m = (s, []) := by
  rw [NotebookQueueState.executeNextUnit.eq_def, h]

theorem executeNextUnit_head_empty (s : NotebookQueueState)
    (m : ExpressionMode) (dq : NotebookDocQueue)
    (rest : List NotebookDocQueue)
    (hq : s.queue = dq :: rest) (hu : dq.units = []) :
    s.executeNextUnit m = (s, []) := by
  rw [NotebookQueueState.executeNextUnit.eq_def, hq]
  dsimp only
  rw [hu]

theorem skipUnit_cons (s : NotebookQueueState) (dq : NotebookDocQueue)
    (rest : List NotebookDocQueue) (u : NotebookQueueUnit)
    (us : List NotebookQueueUnit)
    (hq : s.queue = dq :: rest) (hu : dq.units = u :: us) :
    s.skipUnit =
      ((({ s.popUnit u with execUnit := some u }).executeNextUnit .New).1,
       .stateChanged u.docId u.chunkId .Cancelled ::
         (({ s.popUnit u with execUnit := some u }).executeNextUnit .New).2) := by
  rw [NotebookQueueState.skipUnit.eq_def, hq]
  dsimp only
  rw [hu]

theorem executeNextUnit_eval_false (s : NotebookQueueState)
    (m : ExpressionMode) (dq : NotebookDocQueue)
    (rest : List NotebookDocQueue) (u : NotebookQueueUnit)
    (us : List NotebookQueueUnit) (o : ChunkOptions)
    (hq : s.queue = dq :: rest) (hu : dq.units = u :: us)
    (hp : u.parseOptions = some o)
    (hm : u.execMode = .Batch) (he : o.eval = some false) :
    s.executeNextUnit m = s.skipUnit := by
  rw [NotebookQueueState.executeNextUnit.eq_def, hq]
  dsimp only
  rw [hu]
  dsimp only
  simp [hp, hm, he]

theorem executeNextUnit_dispatch_r (s : NotebookQueueState)
    (m : ExpressionMode) (dq : NotebookDocQueue)
    (rest : List NotebookDocQueue) (u : NotebookQueueUnit)
    (us : List NotebookQueueUnit) (o : ChunkOptions) (r : String)
    (rs : List String)
    (hq : s.queue = dq :: rest) (hu : dq.units = u :: us)
    (hp : u.parseOptions = some o)
    (hskip : (u.execMode == ExecMode.Batch && !o.eval.getD true) = false)
    (heng : (o.engine.getD "r" == "r") = true)
    (hr : u.pendingRanges = r :: rs) :
    s.executeNextUnit m =
      (⟨s.queue, some { u with pendingRanges := rs },
        some (mkChunkExecContext u o (docCtxId dq) dq)⟩,
       [.stateChanged u.docId u.chunkId .Started,
        .exprComplete u.docId u.chunkId,
        .consoleInput u.chunkId (some r),
        .rangeExecuted u.docId u.chunkId r .New]) := by
  rw [NotebookQueueState.executeNextUnit.eq_def, hq]
  dsimp only
  rw [hu]
  dsimp only
  simp only [hp, Option.isNone_some, Option.getD_some, hskip, heng,
    Bool.false_eq_true, if_false, if_true,
    NotebookQueueState.executeCurrentUnit, NotebookQueueUnit.popExecRange, hr,
    mkChunkExecContext]
  rw [← hq]
  simp

theorem executeNextUnit_dispatch_alt (s : NotebookQueueState)
    (m : ExpressionMode) (dq : NotebookDocQueue)
    (rest : List NotebookDocQueue) (u : NotebookQueueUnit)
    (us : List NotebookQueueUnit) (o : ChunkOptions) (code : String)
    (hq : s.queue = dq :: rest) (hu : dq.units = u :: us)
    (hp : u.parseOptions = some o)
    (hskip : (u.execMode == ExecMode.Batch && !o.eval.getD true) = false)
    (heng : (o.engine.getD "r" == "r") = false)
    (hcode : u.innerCode = some code) (hok : u.altEngineOk = true) :
    s.executeNextUnit m =
      (⟨s.queue, some u, s.execContext⟩,
       [.stateChanged u.docId u.chunkId .Started,
        .altEngineExec u.docId u.chunkId (docCtxId dq)
          (o.engine.getD "r") code]) := by
  rw [NotebookQueueState.executeNextUnit.eq_def, hq]
  dsimp only
  rw [hu]
  dsimp only
  simp only [hp, Option.isNone_some, Option.getD_some, hskip, heng,
    Bool.false_eq_true, if_false, if_true, hcode, hok]
  rw [← hq]
  simp

theorem executeNextUnit_innerCode_fail (s : NotebookQueueState)
    (m : ExpressionMode) (dq : NotebookDocQueue)
    (rest : List NotebookDocQueue) (u : NotebookQueueUnit)
    (us : List NotebookQueueUnit) (o : ChunkOptions)
    (hq : s.queue = dq :: rest) (hu : dq.units = u :: us)
    (hp : u.parseOptions = some o)
    (hskip : (u.execMode == ExecMode.Batch && !o.eval.getD true) = false)
    (heng : (o.engine.getD "r" == "r") = false)
    (hcode : u.innerCode = none) :
    s.executeNextUnit m = ((s.skipUnit).1, .logError :: (s.skipUnit).2) := by
  rw [NotebookQueueState.executeNextUnit.eq_def, hq]
  dsimp only
  rw [hu]
  dsimp only
  simp only [hp, Option.isNone_some, Option.getD_some, hskip, heng,
    Bool.false_eq_true, if_false, if_true, hcode]
  simp

theorem executeNextUnit_parse_fail (s : NotebookQueueState)
    (m : ExpressionMode) (dq : NotebookDocQueue)
    (rest : List NotebookDocQueue) (u : NotebookQueueUnit)
    (us : List NotebookQueueUnit)
    (hq : s.queue = dq :: rest) (hu : dq.units = u :: us)
    (hp : u.parseOptions = none) :
    s.executeNextUnit m =
      (((⟨s.queue, some u,
          some (mkChunkExecContext u ({} : ChunkOptions) (docCtxId dq) dq)⟩ :
            NotebookQueueState).skipUnit).1,
       .logError :: .stateChanged u.docId u.chunkId .Started ::
         ((⟨s.queue, some u,
            some (mkChunkExecContext u ({} : ChunkOptions) (docCtxId dq) dq)⟩ :
              NotebookQueueState).skipUnit).2) := by
  rw [NotebookQueueState.executeNextUnit.eq_def, hq]
  dsimp only
  rw [hu]
  dsimp only
  simp only [hp, Option.isNone_none, Option.getD_none, Bool.and_false,
    Bool.false_eq_true, if_false, if_true]
  rw [← hq]
  simp

theorem process_queue_nil (s : NotebookQueueState) (m : ExpressionMode)
    (b : Bool) (h : s.queue = []) : s.process m b = (s, []) := by
  simp [NotebookQueueState.process, h]

theorem process_dispatch (s : NotebookQueueState) (m : ExpressionMode)
    (hq : s.queue ≠ []) (hu : s.execUnit = none) :
    s.process m false = s.executeNextUnit m := by
  simp [NotebookQueueState.process, List.isEmpty_iff, hq, hu]

theorem process_fatal (s : NotebookQueueState) (m : ExpressionMode)
    (u : NotebookQueueUnit) (c : ChunkExecContext)
    (hq : s.queue ≠ []) (hu : s.execUnit = some u)
    (hc : s.execContext = some c) (he : c.hasErrors = true)
    (ho : c.options.error.getD false = false) :
    s.process m false = s.clear := by
  simp [NotebookQueueState.process, List.isEmpty_iff, hq, hu, hc, he, ho]

theorem popUnit_queue_congr (s t : NotebookQueueState)
    (u : NotebookQueueUnit) (h : s.queue = t.queue) :
    (s.popUnit u).queue = (t.popUnit u).queue := by
  unfold NotebookQueueState.popUnit
  rw [h]
  rcases t.queue with _ | ⟨dq, rest⟩
  · exact h
  · dsimp only
    split <;> rfl

theorem process_finish_ctx (s : NotebookQueueState) (m : ExpressionMode)
    (u : NotebookQueueUnit) (c : ChunkExecContext)
    (hq : s.queue ≠ []) (hu : s.execUnit = some u)
    (hr : u.pendingRanges = []) (hc : s.execContext = some c)
    (hnf : (c.hasErrors && !(c.options.error.getD false)) = false)
    (hinc : (m == ExpressionMode.Continuation
              && u.execScope == ExecScope.Chunk) = false) :
    s.process m false =
      (((⟨(s.popUnit u).queue, none, none⟩ : NotebookQueueState).executeNextUnit m).1,
       .stateChanged u.docId u.chunkId .Finished ::
         .ctxDisconnected c.docId c.chunkId ::
           ((⟨(s.popUnit u).queue, none, none⟩ : NotebookQueueState).executeNextUnit m).2) := by
  simp only [NotebookQueueState.process, List.isEmpty_iff, hq, if_neg, hu, hc, hnf,
    Bool.false_eq_true, if_false, NotebookQueueUnit.complete, hr,
    List.isEmpty_nil, if_true, hinc, popUnit_execContext]
  simp

theorem process_incomplete (s : NotebookQueueState) (m : ExpressionMode)
    (u : NotebookQueueUnit) (c : ChunkExecContext)
    (hq : s.queue ≠ []) (hu : s.execUnit = some u)
    (hr : u.pendingRanges = [])
    (hinc : (m == ExpressionMode.Continuation
              && u.execScope == ExecScope.Chunk) = true)
    (hc : s.execContext = some c)
    (hnf : (c.hasErrors && !(c.options.error.getD false)) = false) :
    s.process m false =
      (⟨(s.popUnit u).queue, none, none⟩,
       [.rError ("Incomplete expression: " ++ u.executingCode),
        .consoleInput u.chunkId none,
        .stateChanged u.docId u.chunkId .Finished,
        .ctxDisconnected c.docId c.chunkId]) := by
  simp only [NotebookQueueState.process, List.isEmpty_iff, hq, if_neg, hu, hc, hnf,
    Bool.false_eq_true, if_false, NotebookQueueUnit.complete, hr,
    List.isEmpty_nil, if_true, hinc, popUnit_execContext]
  simp

theorem process_current (s : NotebookQueueState) (m : ExpressionMode)
    (u : NotebookQueueUnit) (c : ChunkExecContext)
    (hq : s.queue ≠ []) (hu : s.execUnit = some u)
    (hc : s.execContext = some c)
    (hnf : (c.hasErrors && !(c.options.error.getD false)) = false)
    (hr : u.pendingRanges ≠ []) :
    s.process m false = s.executeCurrentUnit m := by
  simp only [NotebookQueueState.process, List.isEmpty_iff, hq, if_neg, hu, hc, hnf,
    Bool.false_eq_true, if_false, NotebookQueueUnit.complete,
    List.isEmpty_iff, hr, if_true]

theorem runN_step_cons (n : Nat) (s : NotebookQueueState)
    (dq : NotebookDocQueue) (rest : List NotebookDocQueue)
    (hq : s.queue = dq :: rest) :
    runN (n + 1) s = (s.process .New false).2 ++ runN n (s.process .New false).1 := by
  simp [runN, hq]

theorem runN_queue_nil (k : Nat) (s : NotebookQueueState)
    (h : s.queue = []) : runN k s = [] := by
  cases k <;> simp [runN, h]

theorem finishedIds_append (a b : List Event) :
    finishedIds (a ++ b) = finishedIds a ++ finishedIds b := by
  simp [finishedIds]

theorem benignUnit_spec (u : NotebookQueueUnit) (h : benignUnit u = true) :
    ∃ o r, u.parseOptions = some o ∧ (o.engine.getD "r" == "r") = true ∧
      o.eval.getD true = true ∧ u.pendingRanges = [r] := by
  unfold benignUnit at h
  rcases hp : u.parseOptions with _ | o
  · rw [hp] at h
    exact absurd h (by simp)
  · rw [hp] at h
    simp only [Bool.and_eq_true, beq_iff_eq] at h
    obtain ⟨⟨heng, heval⟩, hlen⟩ := h
    obtain ⟨r, hr⟩ := List.length_eq_one.mp hlen
    exact ⟨o, r, rfl, by simp [heng], heval, hr⟩

theorem benignQueue_spec (dq : NotebookDocQueue) (h : benignQueue dq = true) :
    ∃ w ws, dq.units = w :: ws ∧ benignUnit w = true ∧
      ws.all benignUnit = true := by
  unfold benignQueue at h
  rcases hu : dq.units with _ | ⟨w, ws⟩
  · rw [hu] at h
    simp at h
  · rw [hu] at h
    simp only [Bool.and_eq_true, List.all_cons] at h
    exact ⟨w, ws, rfl, h.2.1, h.2.2⟩

theorem dispatch_benign (qs : List NotebookDocQueue) (dq2 : NotebookDocQueue)
    (rest2 : List NotebookDocQueue) (w : NotebookQueueUnit)
    (ws : List NotebookQueueUnit) (o : ChunkOptions) (r0 : String)
    (hqs : qs = dq2 :: rest2) (hw : dq2.units = w :: ws)
    (hpo : w.parseOptions = some o)
    (heng : (o.engine.getD "r" == "r") = true)
    (heval : o.eval.getD true = true)
    (hr : w.pendingRanges = [r0]) :
    (⟨qs, none, none⟩ : NotebookQueueState).executeNextUnit .New =
      (⟨qs, some { w with pendingRanges := [] },
        some (mkChunkExecContext w o (docCtxId dq2) dq2)⟩,
       [.stateChanged w.docId w.chunkId .Started,
        .exprComplete w.docId w.chunkId,
        .consoleInput w.chunkId (some r0),
        .rangeExecuted w.docId w.chunkId r0 .New]) :=
  executeNextUnit_dispatch_r _ .New dq2 rest2 w ws o r0 [] hqs hw hpo
    (by simp [heval]) heng hr

theorem runN_exec_loop (k : Nat) :
    ∀ (dq : NotebookDocQueue) (rest : List NotebookDocQueue)
      (v u2 : NotebookQueueUnit) (us : List NotebookQueueUnit)
      (c : ChunkExecContext),
      dq.units = v :: us →
      v.docId = u2.docId → v.chunkId = u2.chunkId →
      u2.pendingRanges = [] → c.hasErrors = false →
      us.all benignUnit = true → rest.all benignQueue = true →
      us.length + totalUnits rest = k →
      finishedIds (runN (k + 1) ⟨dq :: rest, some u2, some c⟩) =
        (u2.docId, u2.chunkId) ::
          (us.map (fun w => (w.docId, w.chunkId)) ++ queueIds rest) := by
  induction k using Nat.strong_induction_on with
  | _ k IH =>
  intro dq rest v u2 us c hdq hid1 hid2 hdone hce hbus hbrest hk
  rw [runN_step_cons k _ dq rest rfl]
  have hnf : (c.hasErrors && !(c.options.error.getD false)) = false := by
    rw [hce]
    rfl
  rw [process_finish_ctx ⟨dq :: rest, some u2, some c⟩ .New u2 c
    (by simp) rfl hdone rfl hnf rfl]
  rw [popUnit_cons_match ⟨dq :: rest, some u2, some c⟩ dq rest u2 v us
    rfl hdq hid1 hid2]
  dsimp only
  rcases us with _ | ⟨w, ws⟩
  · simp only [List.isEmpty_nil, if_true]
    rcases hrest : rest with _ | ⟨dq2, rest2⟩
    · rw [executeNextUnit_queue_nil _ _ rfl]
      rw [runN_queue_nil k _ rfl]
      simp [finishedIds, queueIds]
    · subst hrest
      simp only [List.all_cons, Bool.and_eq_true] at hbrest
      obtain ⟨hbdq2, hbrest2⟩ := hbrest
      obtain ⟨w, ws, hw, hbw, hbws⟩ := benignQueue_spec dq2 hbdq2
      obtain ⟨o, r0, hpo, heng, heval, hr⟩ := benignUnit_spec w hbw
      rw [dispatch_benign (dq2 :: rest2) dq2 rest2 w ws o r0 rfl hw hpo
        heng heval hr]
      dsimp only
      have hk2 : ws.length + totalUnits rest2 + 1 = k := by
        simp only [List.length_nil, Nat.zero_add, totalUnits, List.map_cons,
          List.sum_cons, hw, List.length_cons] at hk ⊢
        omega
      rw [← hk2]
      rw [finishedIds_append]
      rw [IH (ws.length + totalUnits rest2) (by omega) dq2 rest2 w
        { w with pendingRanges := [] } ws
        (mkChunkExecContext w o (docCtxId dq2) dq2)
        hw rfl rfl rfl rfl hbws hbrest2 rfl]
      simp [finishedIds, queueIds, hw]
  · simp only [List.isEmpty_cons, Bool.false_eq_true, if_false]
    simp only [List.all_cons, Bool.and_eq_true] at hbus
    obtain ⟨hbw, hbws⟩ := hbus
    obtain ⟨o, r0, hpo, heng, heval, hr⟩ := benignUnit_spec w hbw
    rw [dispatch_benign ({ dq with units := w :: ws } :: rest)
      { dq with units := w :: ws } rest w ws o r0 rfl rfl hpo heng heval hr]
    dsimp only
    have hk2 : ws.length + totalUnits rest + 1 = k := by
      simp only [List.length_cons] at hk
      omega
    rw [← hk2]
    rw [finishedIds_append]
    rw [IH (ws.length + totalUnits rest) (by omega)
      { dq with units := w :: ws } rest w { w with pendingRanges := [] } ws
      (mkChunkExecContext w o (docCtxId { dq with units := w :: ws })
        { dq with units := w :: ws })
      rfl rfl rfl rfl rfl hbws hbrest rfl]
    simp [finishedIds, queueIds]

/-! ### The claims -/

/-- C9: the console-prompt handler drives `process` in Continuation mode iff
the prompt text is exactly the two-character string `"+ "`; any other prompt
text, including `"+"` without the trailing space, drives New mode. -/
theorem claim_C9_continuation_prompt :
    ∀ (s : NotebookQueueState) (p : String) (b : Bool),
      s.onConsolePrompt p b = s.process (promptMode p) b ∧
      (promptMode p = .Continuation ↔ p = "+ ") ∧
      promptMode "+" = .New := by
  intro s p b
  refine ⟨rfl, ⟨?_, ?_⟩, by decide⟩
  · intro h
    by_contra hne
    simp only [promptMode, beq_iff_eq, hne, if_false] at h
    exact ExpressionMode.noConfusion h
  · intro h
    simp [promptMode, h]

/-- C10: the chunk-execution-completed handler never examines the
notification's context id — for any two context ids the handler produces
identical states and events, so a matched alternate-engine completion
completes the current unit no matter what context id it carries. -/
theorem claim_C10_ctx_id_ignored :
    ∀ (s : NotebookQueueState) (d ch x y : String) (b : Bool),
      s.onChunkExecCompleted d ch x b = s.onChunkExecCompleted d ch y b := by
  intro s d ch x y b
  rfl

/-- C5: a chunk-execution-completed notification that names the current
unit's identity while no ExecutionContext is attached pops the unit, emits
exactly one Finished notification, clears the current unit and re-enters
`process(New)`; any other notification (no current unit, identity mismatch,
or an attached context) leaves the state unchanged and emits nothing. -/
theorem claim_C5_alt_completion_bridge :
    ∀ (s : NotebookQueueState) (d ch n : String) (b : Bool),
      (s.execUnit = none → s.onChunkExecCompleted d ch n b = (s, [])) ∧
      (∀ u, s.execUnit = some u → u.docId = d → u.chunkId = ch →
        s.execContext = none →
        s.onChunkExecCompleted d ch n b =
          ((({ s.popUnit u with execUnit := none }).process .New b).1,
           .stateChanged u.docId u.chunkId .Finished ::
             (({ s.popUnit u with execUnit := none }).process .New b).2)) ∧
      (∀ u, s.execUnit = some u →
        ¬(u.docId = d ∧ u.chunkId = ch ∧ s.execContext = none) →
        s.onChunkExecCompleted d ch n b = (s, [])) := by
  intro s d ch n b
  refine ⟨?_, ?_, ?_⟩
  · intro h
    unfold NotebookQueueState.onChunkExecCompleted
    rw [h]
  · intro u hu h1 h2 h3
    unfold NotebookQueueState.onChunkExecCompleted
    rw [hu]
    dsimp only
    simp [h1, h2, h3]
  · intro u hu hneg
    unfold NotebookQueueState.onChunkExecCompleted
    rw [hu]
    dsimp only
    have hcond : (u.docId == d && u.chunkId == ch && s.execContext.isNone) = false := by
      rcases Decidable.em (u.docId = d) with h1 | h1
      · rcases Decidable.em (u.chunkId = ch) with h2 | h2
        · rcases Decidable.em (s.execContext = none) with h3 | h3
          · exact absurd ⟨h1, h2, h3⟩ hneg
          · have hns : s.execContext.isNone = false := by
              rcases hx : s.execContext with _ | c
              · exact absurd hx h3
              · rfl
            simp [h1, h2, hns]
        · simp [h1, h2]
      · simp [h1]
    rw [hcond]
    simp

/-- C5 witness: the completion of the queued alternate-engine unit at a
concrete state pops it, finishes it and re-enters processing (which finds
the queue empty). -/
theorem claim_C5_witness :
    stAlt.onChunkExecCompleted "d" "c1" "staleCtx" false =
      (⟨[], none, none⟩, [.stateChanged "d" "c1" .Finished]) := by
  have h := ((claim_C5_alt_completion_bridge stAlt "d" "c1" "staleCtx" false).2.1)
    unitAlt rfl rfl rfl rfl
  rw [h]
  have hpop : { stAlt.popUnit unitAlt with execUnit := none } =
      (⟨[], none, none⟩ : NotebookQueueState) := by decide
  rw [hpop, process_queue_nil _ _ _ rfl]
  rfl

/-- C8: user interrupt is total and idempotent — with no GlobalQueue it is a
no-op; with one it discards the queue wholesale (clearing every DocumentQueue
and the current unit, disconnecting any attached context) while emitting no
Started/Finished/Cancelled notification, after which a console-prompt advance
is a no-op and a second interrupt changes nothing. -/
theorem claim_C8_interrupt (g : Option NotebookQueueState) (p : String) (b : Bool) :
    globalOnUserInterrupt none = (none, []) ∧
    (globalOnUserInterrupt g).1 = none ∧
    notifications (globalOnUserInterrupt g).2 = [] ∧
    globalOnConsolePrompt (globalOnUserInterrupt g).1 p b = (none, []) ∧
    globalOnUserInterrupt (globalOnUserInterrupt g).1 = (none, []) ∧
    (∀ s c, g = some s → s.execContext = some c →
      (globalOnUserInterrupt g).2 = [.ctxDisconnected c.docId c.chunkId]) := by
  have hres : (globalOnUserInterrupt g).1 = none := by
    unfold globalOnUserInterrupt
    rcases g with _ | s <;> rfl
  refine ⟨rfl, hres, ?_, ?_, ?_, ?_⟩
  · rcases g with _ | s
    · rfl
    · show notifications (globalOnUserInterrupt (some s)).2 = []
      unfold globalOnUserInterrupt NotebookQueueState.clear
      rcases hc : s.execContext with _ | c <;> simp [hc, notifications]
  · rw [hres]; rfl
  · rw [hres]; rfl
  · intro s c hg hc
    subst hg
    unfold globalOnUserInterrupt NotebookQueueState.clear
    simp [hc]

/-- C8 witness: interrupting the concrete state whose context is attached
and erroring discards everything, emitting only the context-disconnect
effect. -/
theorem claim_C8_witness :
    (globalOnUserInterrupt (some stErrFatal)).2 =
      [.ctxDisconnected "d" "c1"] ∧
    (globalOnUserInterrupt (some stErrFatal)).1 = none := by
  have h := claim_C8_interrupt (some stErrFatal) "> " false
  refine ⟨?_, h.2.1⟩
  have := h.2.2.2.2.2 stErrFatal ctxErr rfl rfl
  simpa [ctxErr] using this

/-- C4: dispatching a Batch-mode unit whose parsed options declare
`eval = false` removes it from its DocumentQueue and produces exactly one
Cancelled notification — no Started, Finished, or console submission — then
recursively dispatches the next unit in New mode. -/
theorem claim_C4_eval_false_skip (s : NotebookQueueState) (m : ExpressionMode)
    (dq : NotebookDocQueue) (rest : List NotebookDocQueue)
    (u : NotebookQueueUnit) (us : List NotebookQueueUnit) (o : ChunkOptions)
    (hq : s.queue = dq :: rest) (hu : dq.units = u :: us)
    (hm : u.execMode = .Batch) (hp : u.parseOptions = some o)
    (he : o.eval = some false) :
    s.executeNextUnit m =
      ((({ s.popUnit u with execUnit := some u }).executeNextUnit .New).1,
       .stateChanged u.docId u.chunkId .Cancelled ::
         (({ s.popUnit u with execUnit := some u }).executeNextUnit .New).2) ∧
    (s.popUnit u).queue =
      (if us.isEmpty then rest else { dq with units := us } :: rest) := by
  constructor
  · rw [executeNextUnit_eval_false s m dq rest u us o hq hu hp hm he]
    exact skipUnit_cons s dq rest u us hq hu
  · rw [popUnit_cons_match s dq rest u u us hq hu rfl rfl]

/-- C4 witness: dispatching the concrete `eval=false` batch unit cancels it
and leaves an empty queue. -/
theorem claim_C4_witness :
    stInitEvalFalse.executeNextUnit .New =
      (⟨[], some unitEvalFalse, none⟩,
       [.stateChanged "d" "c1" .Cancelled]) := by
  have h := (claim_C4_eval_false_skip stInitEvalFalse .New
    (docQueueOf "d" [unitEvalFalse]) [] unitEvalFalse []
    ({ eval := some false } : ChunkOptions) rfl rfl rfl rfl rfl).1
  rw [h]
  have hpop : ({ stInitEvalFalse.popUnit unitEvalFalse with
      execUnit := some unitEvalFalse } : NotebookQueueState) =
      ⟨[], some unitEvalFalse, none⟩ := by decide
  rw [hpop, executeNextUnit_queue_nil _ _ rfl]
  rfl

/-- C2 counterexample: a unit whose options fail to resolve (engine then
defaulting to the primary interpreter) is dispatched with a Started
notification before being cancelled — refuting the claim that a
resolution-failure skip emits no Started notification. -/
theorem claim_C2_counterexample :
    unitOptFail.parseOptions = none ∧
    (stInitOptFail.executeNextUnit .New).2 =
      [.logError, .stateChanged "d" "c1" .Started,
       .stateChanged "d" "c1" .Cancelled] := by
  refine ⟨rfl, ?_⟩
  rw [executeNextUnit_parse_fail stInitOptFail .New
    (docQueueOf "d" [unitOptFail]) [] unitOptFail [] rfl rfl rfl]
  rw [skipUnit_cons _ (docQueueOf "d" [unitOptFail]) [] unitOptFail [] rfl rfl]
  rw [executeNextUnit_queue_nil _ _ (by decide)]
  rfl

/-- C2 as amended: a resolution failure is logged and the unit is skipped —
removed from its DocumentQueue with exactly one Cancelled notification and
dispatch recursively proceeding — but the notifications differ by failure
kind: an inner-source failure emits Cancelled only, while an options-parse
failure (engine defaulting to primary) emits one Started before the
Cancelled, leaving the freshly attached context in place. -/
theorem claim_C2_resolution_failure_skip (s : NotebookQueueState)
    (m : ExpressionMode) (dq : NotebookDocQueue)
    (rest : List NotebookDocQueue) (u : NotebookQueueUnit)
    (us : List NotebookQueueUnit)
    (hq : s.queue = dq :: rest) (hu : dq.units = u :: us) :
    (∀ o, u.parseOptions = some o →
      (u.execMode == ExecMode.Batch && !o.eval.getD true) = false →
      (o.engine.getD "r" == "r") = false →
      u.innerCode = none →
      s.executeNextUnit m =
        ((({ s.popUnit u with execUnit := some u }).executeNextUnit .New).1,
         .logError :: .stateChanged u.docId u.chunkId .Cancelled ::
           (({ s.popUnit u with execUnit := some u }).executeNextUnit .New).2)) ∧
    (u.parseOptions = none →
      s.executeNextUnit m =
        (((⟨(s.popUnit u).queue, some u,
            some (mkChunkExecContext u ({} : ChunkOptions) (docCtxId dq) dq)⟩ :
              NotebookQueueState).executeNextUnit .New).1,
         .logError :: .stateChanged u.docId u.chunkId .Started ::
           .stateChanged u.docId u.chunkId .Cancelled ::
             ((⟨(s.popUnit u).queue, some u,
               some (mkChunkExecContext u ({} : ChunkOptions) (docCtxId dq) dq)⟩ :
                 NotebookQueueState).executeNextUnit .New).2)) := by
  constructor
  · intro o hp hskip heng hcode
    rw [executeNextUnit_innerCode_fail s m dq rest u us o hq hu hp hskip heng hcode]
    rw [skipUnit_cons s dq rest u us hq hu]
  · intro hp
    rw [executeNextUnit_parse_fail s m dq rest u us hq hu hp]
    rw [skipUnit_cons
      (⟨s.queue, some u,
        some (mkChunkExecContext u ({} : ChunkOptions) (docCtxId dq) dq)⟩ :
          NotebookQueueState) dq rest u us hq hu]
    have hmk : ({ (⟨s.queue, some u,
        some (mkChunkExecContext u ({} : ChunkOptions) (docCtxId dq) dq)⟩ :
          NotebookQueueState).popUnit u with execUnit := some u } :
            NotebookQueueState) =
        ⟨(s.popUnit u).queue, some u,
          some (mkChunkExecContext u ({} : ChunkOptions) (docCtxId dq) dq)⟩ := by
      rw [show ({ (⟨s.queue, some u,
          some (mkChunkExecContext u ({} : ChunkOptions) (docCtxId dq) dq)⟩ :
            NotebookQueueState).popUnit u with execUnit := some u } :
              NotebookQueueState) =
          ⟨((⟨s.queue, some u,
              some (mkChunkExecContext u ({} : ChunkOptions) (docCtxId dq) dq)⟩ :
                NotebookQueueState).popUnit u).queue, some u,
            ((⟨s.queue, some u,
              some (mkChunkExecContext u ({} : ChunkOptions) (docCtxId dq) dq)⟩ :
                NotebookQueueState).popUnit u).execContext⟩ from rfl]
      rw [popUnit_queue_congr
        (⟨s.queue, some u,
          some (mkChunkExecContext u ({} : ChunkOptions) (docCtxId dq) dq)⟩ :
            NotebookQueueState) s u rfl]
      rw [popUnit_execContext]
    rw [hmk]

/-- C2 witness for the amended claim: the concrete inner-source failure is
logged and cancelled with no Started, leaving an empty queue. -/
theorem claim_C2_witness :
    stInitInnerFail.executeNextUnit .New =
      (⟨[], some unitInnerFail, none⟩,
       [.logError, .stateChanged "d" "c1" .Cancelled]) := by
  have h := (claim_C2_resolution_failure_skip stInitInnerFail .New
    (docQueueOf "d" [unitInnerFail]) [] unitInnerFail [] rfl rfl).1
    ({ engine := some "python" } : ChunkOptions) rfl (by decide) (by decide) rfl
  rw [h]
  have hpop : ({ stInitInnerFail.popUnit unitInnerFail with
      execUnit := some unitInnerFail } : NotebookQueueState) =
      ⟨[], some unitInnerFail, none⟩ := by decide
  rw [hpop, executeNextUnit_queue_nil _ _ rfl]
  rfl

/-- C1 counterexample: advancing the concrete erroring state with `error`
unset empties every DocumentQueue and drops the current unit, but the
ExecutionContext reference is retained (merely disconnected) — refuting the
claim that the context is dropped. -/
theorem claim_C1_counterexample :
    (stErrFatal.process .New false).1.queue = [] ∧
    (stErrFatal.process .New false).1.execUnit = none ∧
    (stErrFatal.process .New false).1.execContext ≠ none := by decide

/-- C1 as amended: with a current unit whose context reports an error, if the
`error` option is false or unset the scheduler discards every DocumentQueue,
drops the current unit, disconnects (but retains) the context, and stops with
no Started/Finished/Cancelled notification; if the option is true it behaves
exactly as if no error had occurred, the states agreeing up to the retained
error flag. -/
theorem claim_C1_error_policy (s : NotebookQueueState) (m : ExpressionMode)
    (u : NotebookQueueUnit) (c : ChunkExecContext)
    (hq : s.queue ≠ []) (hu : s.execUnit = some u)
    (hc : s.execContext = some c) (he : c.hasErrors = true) :
    (c.options.error.getD false = false →
      s.process m false =
        (⟨[], none, some { c with connected := false }⟩,
         [.ctxDisconnected c.docId c.chunkId]) ∧
      notifications (s.process m false).2 = []) ∧
    (c.options.error.getD false = true →
      (s.process m false).2 = ((scrubErrors s).process m false).2 ∧
      scrubErrors (s.process m false).1 =
        scrubErrors ((scrubErrors s).process m false).1) := by
  constructor
  · intro ho
    have hp := process_fatal s m u c hq hu hc he ho
    constructor
    · rw [hp]
      unfold NotebookQueueState.clear
      rw [hc]
      rfl
    · rw [hp]
      unfold NotebookQueueState.clear
      rw [hc]
      simp [notifications]
  · intro ho
    have hc2 : (scrubErrors s).execContext = some { c with hasErrors := false } := by
      show s.execContext.map _ = _
      rw [hc]
      rfl
    have hnfL : (c.hasErrors && !(c.options.error.getD false)) = false := by
      rw [he, ho]
      rfl
    have hnfR : (({ c with hasErrors := false } : ChunkExecContext).hasErrors
        && !(({ c with hasErrors := false } : ChunkExecContext).options.error.getD false)) = false := rfl
    rcases hranges : u.pendingRanges with _ | ⟨r, rs⟩
    · cases hmode : (m == ExpressionMode.Continuation && u.execScope == ExecScope.Chunk)
      · rw [process_finish_ctx s m u c hq hu hranges hc hnfL hmode,
            process_finish_ctx (scrubErrors s) m u { c with hasErrors := false }
              hq hu hranges hc2 hnfR hmode]
        rw [popUnit_queue_congr (scrubErrors s) s u rfl]
        exact ⟨rfl, rfl⟩
      · rw [process_incomplete s m u c hq hu hranges hmode hc hnfL,
            process_incomplete (scrubErrors s) m u { c with hasErrors := false }
              hq hu hranges hmode hc2 hnfR]
        rw [popUnit_queue_congr (scrubErrors s) s u rfl]
        exact ⟨rfl, rfl⟩
    · have hne : u.pendingRanges ≠ [] := by
        rw [hranges]
        simp
      rw [process_current s m u c hq hu hc hnfL hne,
          process_current (scrubErrors s) m u { c with hasErrors := false }
            hq hu hc2 hnfR hne]
      unfold NotebookQueueState.executeCurrentUnit
      rw [show (scrubErrors s).execUnit = s.execUnit from rfl, hu]
      dsimp only
      rw [hc, hc2]
      cases m <;> exact ⟨rfl, rfl⟩

/-- C1 witness: the concrete erroring state with `error` unset clears to an
empty queue with only the context-disconnect effect. -/
theorem claim_C1_witness :
    stErrFatal.process .New false =
      (⟨[], none, some { ctxErr with connected := false }⟩,
       [.ctxDisconnected "d" "c1"]) := by
  have h := (claim_C1_error_policy stErrFatal .New unitDone ctxErr
    (by decide) rfl rfl rfl).1 (by decide)
  exact h.1.trans (by decide)

/-- C7 counterexample: after advancing past the concrete `eval=false` batch
unit the prompt handler discards the GlobalQueue even though a (cancelled)
unit reference is still current — refuting the claim that teardown happens
only when no unit is current. -/
theorem claim_C7_counterexample :
    (globalOnConsolePrompt (some stInitEvalFalse) "> " false).1 = none ∧
    (stInitEvalFalse.onConsolePrompt "> " false).1.execUnit =
      some unitEvalFalse := by
  have hstep : stInitEvalFalse.onConsolePrompt "> " false =
      (⟨[], some unitEvalFalse, none⟩,
       [.stateChanged "d" "c1" .Cancelled]) := by
    unfold NotebookQueueState.onConsolePrompt
    rw [show promptMode "> " = .New by decide]
    rw [process_dispatch _ _ (by decide) rfl]
    rw [executeNextUnit_eval_false stInitEvalFalse .New
      (docQueueOf "d" [unitEvalFalse]) [] unitEvalFalse []
      ({ eval := some false } : ChunkOptions) rfl rfl rfl rfl rfl]
    rw [skipUnit_cons stInitEvalFalse (docQueueOf "d" [unitEvalFalse]) []
      unitEvalFalse [] rfl rfl]
    have hpop : ({ stInitEvalFalse.popUnit unitEvalFalse with
        execUnit := some unitEvalFalse } : NotebookQueueState) =
        ⟨[], some unitEvalFalse, none⟩ := by decide
    rw [hpop, executeNextUnit_queue_nil _ _ rfl]
    rfl
  constructor
  · unfold globalOnConsolePrompt
    dsimp only
    rw [hstep]
    rfl
  · rw [hstep]

/-- C7 as amended: the prompt handler discards the GlobalQueue exactly when
all DocumentQueues are empty after the advance — regardless of whether a
current-unit reference remains — forwarding the advance events either way;
with no GlobalQueue the handler is a no-op. -/
theorem claim_C7_teardown (s : NotebookQueueState) (p : String) (b : Bool) :
    ((globalOnConsolePrompt (some s) p b).1 = none ↔
      (s.onConsolePrompt p b).1.queue = []) ∧
    (globalOnConsolePrompt (some s) p b).2 = (s.onConsolePrompt p b).2 ∧
    globalOnConsolePrompt none p b = (none, []) := by
  unfold globalOnConsolePrompt
  dsimp only
  by_cases hx : (s.onConsolePrompt p b).1.queue = []
  · simp [NotebookQueueState.complete, hx]
  · simp [NotebookQueueState.complete, List.isEmpty_iff, hx]

/-- C3: advancing in Continuation mode while the current Chunk-scope unit has
no pending ranges (and its context reports no error) raises exactly one
interpreter-visible incomplete-expression error, submits exactly one empty
interrupt console input, pops the unit with exactly one Finished
notification, disconnects and clears the context, clears the current unit,
and dispatches nothing further in the same tick. -/
theorem claim_C3_incompleteness_fault (s : NotebookQueueState)
    (u : NotebookQueueUnit) (c : ChunkExecContext)
    (hq : s.queue ≠ []) (hu : s.execUnit = some u)
    (hr : u.pendingRanges = []) (hs : u.execScope = .Chunk)
    (hc : s.execContext = some c) (he : c.hasErrors = false) :
    s.process .Continuation false =
      (⟨(s.popUnit u).queue, none, none⟩,
       [.rError ("Incomplete expression: " ++ u.executingCode),
        .consoleInput u.chunkId none,
        .stateChanged u.docId u.chunkId .Finished,
        .ctxDisconnected c.docId c.chunkId]) :=
  process_incomplete s .Continuation u c hq hu hr (by simp [hs]) hc (by simp [he])

/-- C3 witness: the concrete complete Chunk-scope unit advanced in
Continuation mode yields the interrupt, the Finished notification, and a
fully cleared scheduler. -/
theorem claim_C3_witness :
    stIncomplete.process .Continuation false =
      (⟨[], none, none⟩,
       [.rError "Incomplete expression: 1 +",
        .consoleInput "c1" none,
        .stateChanged "d" "c1" .Finished,
        .ctxDisconnected "d" "c1"]) := by
  have h := claim_C3_incompleteness_fault stIncomplete unitDone ctxOk
    (by decide) rfl rfl rfl rfl rfl
  exact h.trans (by decide)

/-- C6: FIFO order — driving the scheduler with idle-interpreter readiness
signals over benign queues (options parse, primary engine, `eval` not false,
one range per unit, no evaluation errors), the Finished notifications list
every unit of the head DocumentQueue in queue order before any unit of a
later DocumentQueue, i.e. exactly the concatenated queue contents in order. -/
theorem claim_C6_fifo_order (qs : List NotebookDocQueue)
    (hb : qs.all benignQueue = true) :
    finishedIds (runN (totalUnits qs + 1) ⟨qs, none, none⟩) = queueIds qs := by
  rcases qs with _ | ⟨dq, rest⟩
  · simp [runN, queueIds, finishedIds]
  · simp only [List.all_cons, Bool.and_eq_true] at hb
    obtain ⟨hbdq, hbrest⟩ := hb
    obtain ⟨w, ws, hw, hbw, hbws⟩ := benignQueue_spec dq hbdq
    obtain ⟨o, r0, hpo, heng, heval, hr⟩ := benignUnit_spec w hbw
    rw [runN_step_cons (totalUnits (dq :: rest)) _ dq rest rfl]
    rw [process_dispatch _ _ (by simp) rfl]
    rw [dispatch_benign (dq :: rest) dq rest w ws o r0 rfl hw hpo heng
      heval hr]
    dsimp only
    have hk2 : ws.length + totalUnits rest + 1 = totalUnits (dq :: rest) := by
      simp only [totalUnits, List.map_cons, List.sum_cons, hw,
        List.length_cons]
      omega
    rw [← hk2]
    rw [finishedIds_append]
    rw [runN_exec_loop (ws.length + totalUnits rest) dq rest w
      { w with pendingRanges := [] } ws
      (mkChunkExecContext w o (docCtxId dq) dq)
      hw rfl rfl rfl rfl hbws hbrest rfl]
    simp [finishedIds, queueIds, hw]

/-- C6 witness: the concrete two-document queue finishes `d1`'s units `a`
then `b`, then `d2`'s unit `cc`. -/
theorem claim_C6_witness :
    finishedIds (runN (totalUnits fifoQueues + 1) ⟨fifoQueues, none, none⟩) =
      [("d1", "a"), ("d1", "b"), ("d2", "cc")] := by
  have h := claim_C6_fifo_order fifoQueues (by decide)
  rw [h]
  decide

end Notebook
